import Mathlib

/-!
Verification of `bin/symbols-check.py`, a post-link symbol-export auditor:
it compares a shared library's exported dynamic symbols against a policy
file of mandatory and optional symbol names, plus a fixed platform-noise
allow-list, and reports unknown exports and missing mandatory symbols.

The embedding below translates the script: Python strings become `String`,
Python lists become `List String`, the subprocess call and `exit` become
explicit `Except`/result values.
-/

namespace SymbolsCheck

/-- The module-level constant PLATFORM_SYMBOLS: symbols that might be
exported for some platforms and are always allowed. -/
def PLATFORM_SYMBOLS : List String :=
  [ "__bss_end__",
    "__bss_start__",
    "__bss_start",
    "__end__",
    "_bss_end__",
    "_edata",
    "_end",
    "_fini",
    "_init" ]

/-- Helper for `pySplit`: walks the characters, accumulating the current
field in reverse; whitespace ends a field, empty fields are dropped. -/
def pySplitAux : List Char → List Char → List String
  | [], acc => if acc.isEmpty then [] else [String.mk acc.reverse]
  | c :: cs, acc =>
    if c.isWhitespace then
      if acc.isEmpty then pySplitAux cs []
      else String.mk acc.reverse :: pySplitAux cs []
    else pySplitAux cs (c :: acc)

/-- Python `str.split()` with no argument: split on runs of whitespace,
producing no empty fields. -/
def pySplit (s : String) : List String := pySplitAux s.data []

/-- Python `line.split('#')[0]`: the characters before the first `#`. -/
def takeBeforeHash : List Char → List Char
  | [] => []
  | c :: cs => if c = '#' then [] else c :: takeBeforeHash cs

/-- Python `str.strip()`: drop leading and trailing whitespace. -/
def pyStrip (s : String) : String :=
  String.mk (((s.data.dropWhile Char.isWhitespace).reverse.dropWhile
      Char.isWhitespace).reverse)

/-- The comment-stripping prelude of the policy-line loop:
`line = line.split('#')[0]` followed by `line = line.strip()`. -/
def stripComment (line : String) : String :=
  pyStrip (String.mk (takeBeforeHash line.data))

/-- One line of the nm tool's output: `(_, _, symbol_name) = line.split()`.
Exactly three whitespace-separated fields are required; any other field
count raises (modelled as an error value). -/
def parseNmLine (line : String) : Except String String :=
  match pySplit line with
  | [_, _, symbol_name] => Except.ok symbol_name
  | _ => Except.error ("ToolOutputError: " ++ line)

/-- The loop of `get_symbols`: collect the symbol name of every output
line, failing at the first line that does not have three fields. -/
def get_symbols : List String → Except String (List String)
  | [] => Except.ok []
  | line :: rest =>
    match parseNmLine line with
    | Except.error e => Except.error e
    | Except.ok name =>
      match get_symbols rest with
      | Except.error e => Except.error e
      | Except.ok names => Except.ok (name :: names)

/-- One iteration of the policy-file loop. The accumulator is the pair
(mandatory_symbols, optional_symbols); an error value models printing a
message and `exit(1)`. -/
def processPolicyLine (symbols_file : String)
    (acc : List String × List String) (line : String) :
    Except String (List String × List String) :=
  let l := stripComment line
  if l = "" then Except.ok acc
  else
    match pySplit l with
    | [symbol] => Except.ok (acc.1 ++ [symbol], acc.2)
    | [qualifier, symbol] =>
      if qualifier = "(optional)" then Except.ok (acc.1, acc.2 ++ [symbol])
      else Except.error (symbols_file ++ ": invalid qualifier: " ++ qualifier)
    | _ => Except.error (symbols_file ++ ": invalid format: " ++ l)

/-- The whole policy-file loop, threading the accumulator through the
lines and stopping at the first malformed line. -/
def loadPolicy (symbols_file : String) :
    List String × List String → List String →
    Except String (List String × List String)
  | acc, [] => Except.ok acc
  | acc, line :: rest =>
    match processPolicyLine symbols_file acc line with
    | Except.error e => Except.error e
    | Except.ok acc2 => loadPolicy symbols_file acc2 rest

/-- The unknown-symbol loop: keep every exported symbol that is in none of
mandatory_symbols, optional_symbols, PLATFORM_SYMBOLS. -/
def unknownSymbols (mandatory_symbols optional_symbols lib_symbols :
    List String) : List String :=
  lib_symbols.filter (fun symbol =>
    !(mandatory_symbols.contains symbol) &&
    !(optional_symbols.contains symbol) &&
    !(PLATFORM_SYMBOLS.contains symbol))

/-- The missing-symbol comprehension:
`[sym for sym in mandatory_symbols if sym not in lib_symbols]`. -/
def missingSymbols (mandatory_symbols lib_symbols : List String) :
    List String :=
  mandatory_symbols.filter (fun sym => !(lib_symbols.contains sym))

/-- The two print loops: one line per unknown symbol, then one line per
missing symbol. -/
def reportLines (lib : String) (unknown missing : List String) :
    List String :=
  unknown.map (fun symbol => lib ++ ": unknown symbol exported: " ++ symbol)
    ++ missing.map (fun symbol => lib ++ ": missing symbol: " ++ symbol)

/-- The final exit: `exit(1)` if either list is non-empty, else `exit(0)`. -/
def exitCode (unknown missing : List String) : Nat :=
  if unknown ≠ [] ∨ missing ≠ [] then 1 else 0

/-- What a completed run prints and returns. -/
structure RunOutput where
  lines : List String
  exit : Nat
  deriving DecidableEq, Repr

/-- The body of `main` after argument parsing, in the source's order:
first `get_symbols` (whose subprocess may fail, modelled by the
`Except.error` case of `nmOutput`, and whose parsing may fail), only then
the policy-file loop, then classification, report and exit code. A
`FormatError` from the policy loop prints its message and exits 1; a tool
failure propagates as an uncaught error with no report. -/
def mainRun (symbols_file lib : String)
    (nmOutput : Except String (List String)) (policyLines : List String) :
    Except String RunOutput :=
  match nmOutput with
  | Except.error e => Except.error e
  | Except.ok outLines =>
    match get_symbols outLines with
    | Except.error e => Except.error e
    | Except.ok lib_symbols =>
      match loadPolicy symbols_file ([], []) policyLines with
      | Except.error msg => Except.ok ⟨[msg], 1⟩
      | Except.ok (mandatory_symbols, optional_symbols) =>
        let unknown := unknownSymbols mandatory_symbols optional_symbols
          lib_symbols
        let missing := missingSymbols mandatory_symbols lib_symbols
        Except.ok ⟨reportLines lib unknown missing,
          exitCode unknown missing⟩

/-- The variables of `main` during the audit phase, as explicit state. -/
structure AuditState where
  lib_symbols : List String
  mandatory_symbols : List String
  optional_symbols : List String
  outLines : List String
  exit : Nat
  deriving DecidableEq, Repr

/-- The audit phase as a state transformer: it reads the three symbol
lists, appends the report to the output, and sets the exit code. -/
def auditPhase (lib : String) (s : AuditState) : AuditState :=
  let unknown := unknownSymbols s.mandatory_symbols s.optional_symbols
    s.lib_symbols
  let missing := missingSymbols s.mandatory_symbols s.lib_symbols
  { s with outLines := s.outLines ++ reportLines lib unknown missing,
           exit := exitCode unknown missing }

/-- Boolean substring occurrence on character lists, used to state what an
error message does or does not contain. -/
def isChunkAt : List Char → List Char → Bool
  | [], _ => true
  | _ :: _, [] => false
  | a :: as, b :: bs => a == b && isChunkAt as bs

/-- Whether the character list `needle` appears contiguously inside
`hay`. -/
def occursIn (needle : List Char) : List Char → Bool
  | [] => needle.isEmpty
  | c :: cs => isChunkAt needle (c :: cs) || occursIn needle cs

/-- C1: a symbol is unknown iff it is exported and in none of the policy's
mandatory list, the policy's optional list, and the platform-noise list;
the unknown sequence is a sublist of the exported sequence (so it keeps the
original order) and keeps every occurrence of an unknown export (so it
keeps multiplicity): unknown = E − (M ∪ O ∪ PlatformNoise). -/
theorem unknown_is_export_minus_allowed (m o E : List String) (s : String) :
    (s ∈ unknownSymbols m o E ↔
        s ∈ E ∧ s ∉ m ∧ s ∉ o ∧ s ∉ PLATFORM_SYMBOLS) ∧
    (unknownSymbols m o E).Sublist E ∧
    (unknownSymbols m o E).count s =
      (if s ∈ m ∨ s ∈ o ∨ s ∈ PLATFORM_SYMBOLS then 0 else E.count s) := by
  refine ⟨?_, List.filter_sublist E, ?_⟩
  · simp [unknownSymbols, List.mem_filter, and_assoc]
  · by_cases h : s ∈ m ∨ s ∈ o ∨ s ∈ PLATFORM_SYMBOLS
    · rw [if_pos h, List.count_eq_zero]
      simp only [unknownSymbols, List.mem_filter]
      rintro ⟨-, hpred⟩
      simp only [Bool.and_eq_true, Bool.not_eq_true'] at hpred
      rcases h with h | h | h <;> simp_all
    · rw [if_neg h]
      push_neg at h
      exact List.count_filter (by simp [h.1, h.2.1, h.2.2])

/-- C2: a symbol is missing iff it is in the policy's mandatory list and
not exported; the missing sequence is a sublist of the mandatory list, so
its order is deterministic and follows policy declaration order. -/
theorem missing_is_mandatory_minus_export (m E : List String) (s : String) :
    (s ∈ missingSymbols m E ↔ s ∈ m ∧ s ∉ E) ∧
    (missingSymbols m E).Sublist m ∧
    (missingSymbols m E).count s = (if s ∈ E then 0 else m.count s) := by
  refine ⟨?_, List.filter_sublist m, ?_⟩
  · simp [missingSymbols, List.mem_filter]
  · by_cases h : s ∈ E
    · rw [if_pos h, List.count_eq_zero]
      simp only [missingSymbols, List.mem_filter]
      rintro ⟨-, hpred⟩
      simp_all
    · rw [if_neg h]
      exact List.count_filter (by simp [h])

/-- C8: the audit phase is deterministic and mutates nothing: it leaves
the exported-symbol list and both policy lists exactly as they were, and
running it a second time on its own result appends the very same report
lines and produces the same exit code. -/
theorem audit_deterministic_no_mutation (lib : String) (s : AuditState) :
    (auditPhase lib s).lib_symbols = s.lib_symbols ∧
    (auditPhase lib s).mandatory_symbols = s.mandatory_symbols ∧
    (auditPhase lib s).optional_symbols = s.optional_symbols ∧
    ((auditPhase lib (auditPhase lib s)).outLines).drop
        ((auditPhase lib s).outLines).length =
      ((auditPhase lib s).outLines).drop s.outLines.length ∧
    (auditPhase lib (auditPhase lib s)).exit = (auditPhase lib s).exit := by
  refine ⟨rfl, rfl, rfl, ?_, rfl⟩
  simp [auditPhase, List.drop_left]

/-- C9: a policy line whose only token is the literal qualifier
`(optional)` raises no error; the token is recorded as a mandatory symbol
named `(optional)`, both in one loop iteration and through the whole
policy loop. -/
theorem lone_optional_token_is_mandatory (file : String) (m o : List String) :
    processPolicyLine file (m, o) "(optional)" =
      Except.ok (m ++ ["(optional)"], o) ∧
    loadPolicy file (m, o) ["(optional)"] =
      Except.ok (m ++ ["(optional)"], o) :=
  ⟨rfl, rfl⟩

/-- C10: the platform-noise allow-list is exactly the nine listed names,
and an exported symbol equal to one of them is never classified unknown,
whatever the policy. -/
theorem platform_symbols_never_unknown :
    PLATFORM_SYMBOLS = ["__bss_end__", "__bss_start__", "__bss_start",
      "__end__", "_bss_end__", "_edata", "_end", "_fini", "_init"] ∧
    ∀ m o E s, s ∈ PLATFORM_SYMBOLS → s ∉ unknownSymbols m o E := by
  refine ⟨rfl, ?_⟩
  intro m o E s hp hmem
  simp only [unknownSymbols, List.mem_filter, Bool.and_eq_true,
    Bool.not_eq_true'] at hmem
  simp_all

/-- Witness for C10 at the platform symbol `_end`. -/
theorem platform_symbols_never_unknown_witness :
    "_end" ∉ unknownSymbols [] [] ["_end"] :=
  platform_symbols_never_unknown.2 [] [] ["_end"] "_end" (by decide)

theorem parseNmLine_ok_iff (line name : String) :
    parseNmLine line = Except.ok name ↔
      ∃ a t, pySplit line = [a, t, name] := by
  rcases h : pySplit line with _ | ⟨a, _ | ⟨b, _ | ⟨c, _ | ⟨d, tl⟩⟩⟩⟩ <;>
    simp [parseNmLine, h]

theorem parseNmLine_err_iff (line : String) :
    (∃ e, parseNmLine line = Except.error e) ↔ (pySplit line).length ≠ 3 := by
  rcases h : pySplit line with _ | ⟨a, _ | ⟨b, _ | ⟨c, _ | ⟨d, tl⟩⟩⟩⟩ <;>
    simp [parseNmLine, h]

theorem get_symbols_ok_iff : ∀ (lines syms : List String),
    get_symbols lines = Except.ok syms ↔
      List.Forall₂ (fun line name => ∃ a t, pySplit line = [a, t, name])
        lines syms
  | [], syms => by
    constructor
    · intro h
      simp only [get_symbols, Except.ok.injEq] at h
      subst h
      exact List.Forall₂.nil
    · intro h
      rw [List.forall₂_nil_left_iff] at h
      subst h
      rfl
  | l :: ls, syms => by
    constructor
    · intro h
      cases hp : parseNmLine l with
      | error e => simp [get_symbols, hp] at h
      | ok name =>
        cases hg : get_symbols ls with
        | error e => simp [get_symbols, hp, hg] at h
        | ok names =>
          simp only [get_symbols, hp, hg, Except.ok.injEq] at h
          subst h
          exact List.Forall₂.cons ((parseNmLine_ok_iff l name).mp hp)
            ((get_symbols_ok_iff ls names).mp hg)
    · intro h
      rcases List.forall₂_cons_left_iff.mp h with ⟨b, u, hR, hF, rfl⟩
      have hp : parseNmLine l = Except.ok b := (parseNmLine_ok_iff l b).mpr hR
      have hg : get_symbols ls = Except.ok u := (get_symbols_ok_iff ls u).mpr hF
      simp [get_symbols, hp, hg]

theorem get_symbols_err_iff : ∀ lines : List String,
    (∃ e, get_symbols lines = Except.error e) ↔
      ∃ line ∈ lines, (pySplit line).length ≠ 3
  | [] => by simp [get_symbols]
  | l :: ls => by
    cases hp : parseNmLine l with
    | error e =>
      have hbad := (parseNmLine_err_iff l).mp ⟨e, hp⟩
      simp only [get_symbols, hp, List.mem_cons]
      exact iff_of_true ⟨e, rfl⟩ ⟨l, Or.inl rfl, hbad⟩
    | ok name =>
      have h3 : (pySplit l).length = 3 := by
        rcases (parseNmLine_ok_iff l name).mp hp with ⟨a, t, ht⟩
        rw [ht]
        rfl
      cases hg : get_symbols ls with
      | error e =>
        rcases (get_symbols_err_iff ls).mp ⟨e, hg⟩ with ⟨x, hx, hxl⟩
        simp only [get_symbols, hp, hg, List.mem_cons]
        exact iff_of_true ⟨e, rfl⟩ ⟨x, Or.inr hx, hxl⟩
      | ok names =>
        simp only [get_symbols, hp, hg, List.mem_cons]
        constructor
        · rintro ⟨e, he⟩
          cases he
        · rintro ⟨x, hx | hx, hxl⟩
          · subst hx
            exact absurd h3 hxl
          · rcases (get_symbols_err_iff ls).mpr ⟨x, hx, hxl⟩ with ⟨e, he⟩
            rw [hg] at he
            cases he

/-- C5: `get_symbols` succeeds exactly when every tool-output line has
three whitespace-separated fields, in which case it returns the third
field of each line in order; any line with a different field count makes
the whole call fail, never a silent misparse. -/
theorem get_symbols_three_field_contract (lines : List String) :
    (∀ syms, get_symbols lines = Except.ok syms ↔
        List.Forall₂ (fun line name => ∃ a t, pySplit line = [a, t, name])
          lines syms) ∧
    ((∃ e, get_symbols lines = Except.error e) ↔
        ∃ line ∈ lines, (pySplit line).length ≠ 3) :=
  ⟨fun syms => get_symbols_ok_iff lines syms, get_symbols_err_iff lines⟩

/-- C7 counterexample: with a malformed policy file (`a b c` has three
tokens) and a failing introspection tool, the run propagates the tool
failure, not the policy FormatError: the claim that loadPolicy happens
first and its FormatError takes precedence is false. -/
theorem tool_error_precedes_format_error :
    mainRun "policy.txt" "lib.so" (Except.error "CalledProcessError")
        ["a b c"] =
      Except.error "CalledProcessError" ∧
    mainRun "policy.txt" "lib.so" (Except.error "CalledProcessError")
        ["a b c"] ≠
      Except.ok ⟨["policy.txt: invalid format: a b c"], 1⟩ :=
  ⟨rfl, fun h => Except.noConfusion h⟩

/-- C7 amended: in the source's order the introspection tool runs first:
a tool-invocation failure or a tool-output parse failure propagates with
no report whatever the policy file holds, and a policy FormatError is
reported with exit code 1 only when the tool invocation and its output
parse both succeed. -/
theorem tool_runs_before_policy (file lib e : String)
    (policyLines : List String) :
    mainRun file lib (Except.error e) policyLines = Except.error e ∧
    (∀ nmLines msg, get_symbols nmLines = Except.error msg →
        mainRun file lib (Except.ok nmLines) policyLines =
          Except.error msg) ∧
    (∀ nmLines E msg, get_symbols nmLines = Except.ok E →
        loadPolicy file ([], []) policyLines = Except.error msg →
        mainRun file lib (Except.ok nmLines) policyLines =
          Except.ok ⟨[msg], 1⟩) := by
  refine ⟨rfl, ?_, ?_⟩
  · intro nmLines msg h
    simp [mainRun, h]
  · intro nmLines E msg h1 h2
    simp [mainRun, h1, h2]

/-- Witness for C7's amended theorem: a well-formed tool output together
with a malformed policy line yields the FormatError report. -/
theorem tool_runs_before_policy_witness :
    mainRun "policy.txt" "lib.so" (Except.ok ["0000 T a"]) ["x y z"] =
      Except.ok ⟨["policy.txt: invalid format: x y z"], 1⟩ :=
  (tool_runs_before_policy "policy.txt" "lib.so" "err" ["x y z"]).2.2
    ["0000 T a"] ["a"] "policy.txt: invalid format: x y z" rfl rfl

/-- C3: a run whose tool output parses and whose policy file is well
formed prints one line per unknown symbol in the form
`<lib>: unknown symbol exported: <symbol>`, then one line per missing
symbol in the form `<lib>: missing symbol: <symbol>`, in audit order, and
exits 0 when both lists are empty and 1 otherwise. -/
theorem mainRun_report_and_exit (file lib : String)
    (nmLines policyLines E m o : List String)
    (hE : get_symbols nmLines = Except.ok E)
    (hP : loadPolicy file ([], []) policyLines = Except.ok (m, o)) :
    mainRun file lib (Except.ok nmLines) policyLines =
      Except.ok ⟨(unknownSymbols m o E).map
            (fun s => lib ++ ": unknown symbol exported: " ++ s) ++
          (missingSymbols m E).map
            (fun s => lib ++ ": missing symbol: " ++ s),
        if unknownSymbols m o E = [] ∧ missingSymbols m E = []
          then 0 else 1⟩ := by
  simp only [mainRun, hE, hP, reportLines, exitCode]
  by_cases h1 : unknownSymbols m o E = [] <;>
    by_cases h2 : missingSymbols m E = [] <;>
    simp [h1, h2]

/-- Witness for C3: one unknown symbol, no missing symbol, exit code 1. -/
theorem mainRun_report_and_exit_witness :
    mainRun "policy.txt" "lib.so"
        (Except.ok ["0000 T foo_init", "0004 T foo_extra"])
        ["foo_init", "(optional) foo_debug"] =
      Except.ok ⟨(unknownSymbols ["foo_init"] ["foo_debug"]
              ["foo_init", "foo_extra"]).map
            (fun s => "lib.so" ++ ": unknown symbol exported: " ++ s) ++
          (missingSymbols ["foo_init"] ["foo_init", "foo_extra"]).map
            (fun s => "lib.so" ++ ": missing symbol: " ++ s),
        if unknownSymbols ["foo_init"] ["foo_debug"]
              ["foo_init", "foo_extra"] = [] ∧
            missingSymbols ["foo_init"] ["foo_init", "foo_extra"] = []
          then 0 else 1⟩ :=
  mainRun_report_and_exit "policy.txt" "lib.so"
    ["0000 T foo_init", "0004 T foo_extra"]
    ["foo_init", "(optional) foo_debug"]
    ["foo_init", "foo_extra"] ["foo_init"] ["foo_debug"] rfl rfl

/-- C6 counterexample: the source keeps the policy in lists, not sets, so
declaring the mandatory symbol `foo` twice makes a missing `foo` appear
twice in the missing sequence and the printed report changes: duplicates
are not without observable effect. -/
theorem duplicate_missing_reported_twice :
    missingSymbols ["foo", "foo"] [] = ["foo", "foo"] ∧
    reportLines "lib.so" (unknownSymbols ["foo", "foo"] [] [])
        (missingSymbols ["foo", "foo"] []) ≠
      reportLines "lib.so" (unknownSymbols ["foo"] [] [])
        (missingSymbols ["foo"] []) :=
  ⟨rfl, by decide⟩

/-- C6 amended: a duplicate mandatory policy entry leaves the unknown
classification and the exit code unchanged, but each extra declaration of
a missing mandatory symbol adds one more occurrence to the missing
sequence: a missing symbol is reported once per declaring line, not at
most once. -/
theorem duplicate_policy_entry_effect (m₁ m₂ o E : List String)
    (s : String) (h : s ∈ m₁) :
    unknownSymbols (m₁ ++ s :: m₂) o E = unknownSymbols (m₁ ++ m₂) o E ∧
    exitCode (unknownSymbols (m₁ ++ s :: m₂) o E)
        (missingSymbols (m₁ ++ s :: m₂) E) =
      exitCode (unknownSymbols (m₁ ++ m₂) o E)
        (missingSymbols (m₁ ++ m₂) E) ∧
    (missingSymbols (m₁ ++ s :: m₂) E).count s =
      (missingSymbols (m₁ ++ m₂) E).count s + (if s ∈ E then 0 else 1) := by
  have hmem : ∀ x : String, x ∈ m₁ ++ s :: m₂ ↔ x ∈ m₁ ++ m₂ := by
    intro x
    simp only [List.mem_append, List.mem_cons]
    constructor
    · rintro (hx | rfl | hx)
      · exact Or.inl hx
      · exact Or.inl h
      · exact Or.inr hx
    · rintro (hx | hx)
      · exact Or.inl hx
      · exact Or.inr (Or.inr hx)
  have hunknown :
      unknownSymbols (m₁ ++ s :: m₂) o E = unknownSymbols (m₁ ++ m₂) o E := by
    unfold unknownSymbols
    apply List.filter_congr
    intro x _
    by_cases hxm : x ∈ m₁ ++ m₂
    · have hxb : x ∈ m₁ ++ s :: m₂ := (hmem x).mpr hxm
      simp [hxm, hxb]
    · have hxb : x ∉ m₁ ++ s :: m₂ := fun hc => hxm ((hmem x).mp hc)
      simp [hxm, hxb]
  refine ⟨hunknown, ?_, ?_⟩
  · by_cases hE : s ∈ E
    · have hmiss : missingSymbols (m₁ ++ s :: m₂) E =
          missingSymbols (m₁ ++ m₂) E := by
        simp [missingSymbols, List.filter_append, List.filter_cons, hE]
      rw [hunknown, hmiss]
    · have hs₁ : s ∈ missingSymbols (m₁ ++ s :: m₂) E :=
        List.mem_filter.mpr ⟨by simp, by simp [hE]⟩
      have hs₂ : s ∈ missingSymbols (m₁ ++ m₂) E :=
        List.mem_filter.mpr ⟨by simp [h], by simp [hE]⟩
      unfold exitCode
      rw [if_pos (Or.inr (List.ne_nil_of_mem hs₁)),
        if_pos (Or.inr (List.ne_nil_of_mem hs₂))]
  · by_cases hE : s ∈ E
    · simp [missingSymbols, List.filter_append, List.filter_cons, hE]
    · simp only [missingSymbols, List.filter_append, List.filter_cons]
      have hps : (!(E.contains s)) = true := by simp [hE]
      rw [if_pos hps]
      simp [List.count_append, List.count_cons, hE]
      omega

/-- Witness for C6's amended theorem with the mandatory symbol `foo`
declared twice and an empty export list. -/
theorem duplicate_policy_entry_effect_witness :
    unknownSymbols (["foo"] ++ "foo" :: []) [] [] =
      unknownSymbols (["foo"] ++ []) [] [] ∧
    exitCode (unknownSymbols (["foo"] ++ "foo" :: []) [] [])
        (missingSymbols (["foo"] ++ "foo" :: []) []) =
      exitCode (unknownSymbols (["foo"] ++ []) [] [])
        (missingSymbols (["foo"] ++ []) []) ∧
    (missingSymbols (["foo"] ++ "foo" :: []) []).count "foo" =
      (missingSymbols (["foo"] ++ []) []).count "foo" +
        (if "foo" ∈ ([] : List String) then 0 else 1) :=
  duplicate_policy_entry_effect ["foo"] [] [] [] "foo" (by decide)

theorem pySplitAux_ne_nil : ∀ (cs acc : List Char), acc ≠ [] →
    pySplitAux cs acc ≠ []
  | [], acc, h => by
    simp only [pySplitAux]
    have he : acc.isEmpty = false := by simp [List.isEmpty_iff, h]
    simp [he]
  | c :: cs, acc, h => by
    simp only [pySplitAux]
    by_cases hw : c.isWhitespace
    · have he : acc.isEmpty = false := by simp [List.isEmpty_iff, h]
      simp [hw, he]
    · simp only [hw, Bool.false_eq_true, if_false]
      exact pySplitAux_ne_nil cs (c :: acc) (by simp)

theorem head_dropWhile_false (l : List Char) (c : Char) (cs : List Char)
    (h : l.dropWhile Char.isWhitespace = c :: cs) :
    Char.isWhitespace c = false := by
  induction l with
  | nil => simp [List.dropWhile] at h
  | cons a as ih =>
    rw [List.dropWhile_cons] at h
    by_cases hp : Char.isWhitespace a
    · rw [if_pos hp] at h
      exact ih h
    · rw [if_neg hp] at h
      injection h with h1 h2
      subst h1
      simpa using hp

theorem pyStrip_split_ne_nil (s : String) (h : pyStrip s ≠ "") :
    pySplit (pyStrip s) ≠ [] := by
  rcases hrev : ((s.data.dropWhile Char.isWhitespace).reverse.dropWhile
      Char.isWhitespace).reverse with _ | ⟨c, cs⟩
  · apply absurd _ h
    show pyStrip s = ""
    unfold pyStrip
    rw [hrev]
  · rcases List.dropWhile_suffix (l := (s.data.dropWhile
        Char.isWhitespace).reverse) Char.isWhitespace with ⟨t, ht⟩
    have hu : s.data.dropWhile Char.isWhitespace = c :: (cs ++ t.reverse) := by
      have h2 := congrArg List.reverse ht
      rw [List.reverse_append, List.reverse_reverse] at h2
      rw [hrev] at h2
      rw [← h2]
      simp
    have hcw : Char.isWhitespace c = false :=
      head_dropWhile_false s.data c _ hu
    have hdata : (pyStrip s).data = c :: cs := hrev
    rw [show pySplit (pyStrip s) = pySplitAux ((pyStrip s).data) [] from rfl,
      hdata]
    simp only [pySplitAux, hcw, Bool.false_eq_true, if_false]
    exact pySplitAux_ne_nil cs [c] (by simp)

theorem stripComment_split_ne_nil (line : String)
    (h : stripComment line ≠ "") : pySplit (stripComment line) ≠ [] :=
  pyStrip_split_ne_nil (String.mk (takeBeforeHash line.data)) h

/-- C4 amended: after comment stripping and trimming, an empty line is
skipped; a one-token line records its token as mandatory; a two-token line
starting with the literal `(optional)` records the second token as
optional; a two-token line with any other first token fails with the
invalid-qualifier FormatError naming the file and the qualifier; a line of
three or more tokens fails with the invalid-format FormatError whose
message holds the file path and the comment-stripped, trimmed line content
(not the raw line); an error arises exactly in the last two cases, and the
policy loop stops at it. -/
theorem policy_line_format (file : String) (m o : List String)
    (line : String) :
    (stripComment line = "" →
        processPolicyLine file (m, o) line = Except.ok (m, o)) ∧
    (∀ s, pySplit (stripComment line) = [s] →
        processPolicyLine file (m, o) line = Except.ok (m ++ [s], o)) ∧
    (∀ s, pySplit (stripComment line) = ["(optional)", s] →
        processPolicyLine file (m, o) line = Except.ok (m, o ++ [s])) ∧
    (∀ q s, pySplit (stripComment line) = [q, s] → q ≠ "(optional)" →
        processPolicyLine file (m, o) line =
          Except.error (file ++ ": invalid qualifier: " ++ q)) ∧
    (3 ≤ (pySplit (stripComment line)).length →
        processPolicyLine file (m, o) line =
          Except.error (file ++ ": invalid format: " ++ stripComment line)) ∧
    ((∃ e, processPolicyLine file (m, o) line = Except.error e) ↔
        3 ≤ (pySplit (stripComment line)).length ∨
          ∃ q s, pySplit (stripComment line) = [q, s] ∧ q ≠ "(optional)") ∧
    (∀ rest msg, processPolicyLine file (m, o) line = Except.error msg →
        loadPolicy file (m, o) (line :: rest) = Except.error msg) := by
  have hne : ∀ {fs : List String}, pySplit (stripComment line) = fs →
      fs ≠ [] → stripComment line ≠ "" := by
    intro fs hfs hfsne hempty
    rw [hempty] at hfs
    exact hfsne (hfs.symm.trans rfl)
  refine ⟨?_, ?_, ?_, ?_, ?_, ?_, ?_⟩
  · intro h
    simp [processPolicyLine, h]
  · intro s hfs
    have h := hne hfs (by simp)
    simp [processPolicyLine, h, hfs]
  · intro s hfs
    have h := hne hfs (by simp)
    simp [processPolicyLine, h, hfs]
  · intro q s hfs hq
    have h := hne hfs (by simp)
    simp [processPolicyLine, h, hfs, hq]
  · intro hlen
    rcases hfs : pySplit (stripComment line) with _ | ⟨a, _ | ⟨b, _ | ⟨c, tl⟩⟩⟩
    · rw [hfs] at hlen
      simp at hlen
    · rw [hfs] at hlen
      simp at hlen
    · rw [hfs] at hlen
      simp at hlen
    · have h := hne hfs (by simp)
      simp [processPolicyLine, h, hfs]
  · constructor
    · rintro ⟨e, he⟩
      by_cases h : stripComment line = ""
      · simp [processPolicyLine, h] at he
      · rcases hfs : pySplit (stripComment line) with
          _ | ⟨a, _ | ⟨b, _ | ⟨c, tl⟩⟩⟩
        · exact absurd hfs (stripComment_split_ne_nil line h)
        · simp [processPolicyLine, h, hfs] at he
        · by_cases hq : a = "(optional)"
          · simp [processPolicyLine, h, hfs, hq] at he
          · exact Or.inr ⟨a, b, rfl, hq⟩
        · refine Or.inl ?_
          simp only [List.length_cons]
          omega
    · rintro (hlen | ⟨q, s2, hfs, hq⟩)
      · rcases hfs : pySplit (stripComment line) with
          _ | ⟨a, _ | ⟨b, _ | ⟨c, tl⟩⟩⟩
        · rw [hfs] at hlen
          simp at hlen
        · rw [hfs] at hlen
          simp at hlen
        · rw [hfs] at hlen
          simp at hlen
        · have h := hne hfs (by simp)
          exact ⟨file ++ ": invalid format: " ++ stripComment line,
            by simp [processPolicyLine, h, hfs]⟩
      · have h := hne hfs (by simp)
        exact ⟨file ++ ": invalid qualifier: " ++ q,
          by simp [processPolicyLine, h, hfs, hq]⟩
  · intro rest msg hmsg
    simp [loadPolicy, hmsg]

/-- Witness for C4's amended theorem: the line `(optional) foo` records
`foo` as optional, and the three-token line `a b c` stops the loop with
the invalid-format message. -/
theorem policy_line_format_witness :
    processPolicyLine "policy.txt" (([] : List String), ([] : List String))
        "(optional) foo" =
      Except.ok (([] : List String), ([] : List String) ++ ["foo"]) ∧
    loadPolicy "policy.txt" (([] : List String), ([] : List String))
        ["a b c", "later"] =
      Except.error "policy.txt: invalid format: a b c" :=
  ⟨(policy_line_format "policy.txt" [] [] "(optional) foo").2.2.1 "foo" rfl,
    (policy_line_format "policy.txt" [] [] "a b c").2.2.2.2.2.2 ["later"]
      "policy.txt: invalid format: a b c"
      ((policy_line_format "policy.txt" [] [] "a b c").2.2.2.2.1
        (by decide))⟩

/-- C4 counterexample: for the policy line `a b c # comment` the
FormatError message holds the comment-stripped, trimmed content `a b c`;
the raw line content does not occur in the message, refuting the claim
that the message includes the raw line content. -/
theorem format_error_message_not_raw_line :
    processPolicyLine "policy.txt" (([] : List String), ([] : List String))
        "a b c # comment" =
      Except.error "policy.txt: invalid format: a b c" ∧
    occursIn "a b c # comment".data
        "policy.txt: invalid format: a b c".data = false :=
  ⟨rfl, by decide⟩

end SymbolsCheck
